import Mathlib

/-!
Verification of the tokbox client library (Go) against its specification.

The embedding works at the byte level: Go strings are modelled as `List Nat`
with every entry below 256.  The HTTP transport and the JSON codec are
external collaborators of the library (spec §1 excludes them), so the
remote-call functions take the response status/body and the decoder as
explicit parameters.  Everything else — percent escaping, SHA-1, HMAC-SHA1,
standard base64, the token data string, the error messages — is translated
directly from `tokbox.go`.
-/

/-- All bytes of a list are genuine byte values (< 256).  Go strings and
`[]byte` values satisfy this by construction. -/
def allLt256 (l : List Nat) : Prop := ∀ b ∈ l, b < 256

instance (l : List Nat) : Decidable (allLt256 l) := by
  unfold allLt256; infer_instance

/-- UTF-8 encoding of a single character (Go source strings are UTF-8). -/
def charBytes (c : Char) : List Nat :=
  let n := c.toNat
  if n < 128 then [n]
  else if n < 2048 then [192 + n / 64, 128 + n % 64]
  else if n < 65536 then [224 + n / 4096, 128 + n / 64 % 64, 128 + n % 64]
  else [240 + n / 262144, 128 + n / 4096 % 64, 128 + n / 64 % 64, 128 + n % 64]

/-- UTF-8 encoding of a character list. -/
def charsBytes : List Char → List Nat
  | [] => []
  | c :: cs => charBytes c ++ charsBytes cs

/-- The bytes of a Lean string literal, as Go sees the corresponding
Go string literal (UTF-8). -/
def strBytes (s : String) : List Nat := charsBytes s.data

/-- Lowercase hexadecimal digit, as used by Go `fmt` verb `%x`. -/
def hexDigit (n : Nat) : Nat := if n < 10 then 48 + n else 87 + n

/-- Uppercase hexadecimal digit, as used by Go `net/url` percent escaping. -/
def hexDigitUpper (n : Nat) : Nat := if n < 10 then 48 + n else 55 + n

/-- Go `fmt.Sprintf("%x", bytes)`: two lowercase hex digits per byte. -/
def hexLower : List Nat → List Nat
  | [] => []
  | b :: rest => hexDigit (b / 16) :: hexDigit (b % 16) :: hexLower rest

/-- Decimal digits of a positive number, most significant first (fuel-driven). -/
def natDecAux : Nat → Nat → List Nat
  | 0, _ => []
  | _, 0 => []
  | fuel + 1, n => natDecAux fuel (n / 10) ++ [48 + n % 10]

/-- Go `fmt.Sprintf("%d", n)` for a non-negative integer, as bytes. -/
def natToDec (n : Nat) : List Nat :=
  if n = 0 then [48] else natDecAux (n + 1) n

/-- Go `fmt.Sprintf("%d", i)` for an `int64`, as bytes. -/
def intToDec : Int → List Nat
  | Int.ofNat n => natToDec n
  | Int.negSucc m => 45 :: natToDec (m + 1)

/-- Character that Go `url.QueryEscape` leaves unescaped: alphanumerics and
`-`, `_`, `.`, `~`. -/
def isUnreservedQ (c : Nat) : Bool :=
  (65 ≤ c && c ≤ 90) || (97 ≤ c && c ≤ 122) || (48 ≤ c && c ≤ 57) ||
    c == 45 || c == 95 || c == 46 || c == 126

/-- Go `url.QueryEscape`: keep unreserved bytes, turn space into `+`, and
percent-encode everything else with uppercase hex digits. -/
def queryEscape : List Nat → List Nat
  | [] => []
  | c :: rest =>
    if isUnreservedQ c then c :: queryEscape rest
    else if c = 32 then 43 :: queryEscape rest
    else 37 :: hexDigitUpper (c / 16) :: hexDigitUpper (c % 16) :: queryEscape rest

/-- Standard base64 alphabet (`A-Z`, `a-z`, `0-9`, `+`, `/`) on 6-bit values. -/
def b64Char (k : Nat) : Nat :=
  if k < 26 then 65 + k
  else if k < 52 then 71 + k
  else if k < 62 then k - 4
  else if k = 62 then 43
  else 47

/-- Inverse of the standard base64 alphabet. -/
def b64DecChar (c : Nat) : Option Nat :=
  if 65 ≤ c ∧ c ≤ 90 then some (c - 65)
  else if 97 ≤ c ∧ c ≤ 122 then some (c - 71)
  else if 48 ≤ c ∧ c ≤ 57 then some (c + 4)
  else if c = 43 then some 62
  else if c = 47 then some 63
  else none

/-- Go `base64.StdEncoding` encoding (with `=` padding, byte 61). -/
def b64Encode : List Nat → List Nat
  | b1 :: b2 :: b3 :: rest =>
    let n := b1 * 65536 + b2 * 256 + b3
    b64Char (n / 262144) :: b64Char (n / 4096 % 64) :: b64Char (n / 64 % 64) ::
      b64Char (n % 64) :: b64Encode rest
  | [b1, b2] =>
    let n := b1 * 65536 + b2 * 256
    [b64Char (n / 262144), b64Char (n / 4096 % 64), b64Char (n / 64 % 64), 61]
  | [b1] =>
    let n := b1 * 65536
    [b64Char (n / 262144), b64Char (n / 4096 % 64), 61, 61]
  | [] => []

/-- Standard base64 decoding, the inverse of `b64Encode`. -/
def b64Decode : List Nat → Option (List Nat)
  | [] => some []
  | c1 :: c2 :: c3 :: c4 :: rest =>
    match b64DecChar c1, b64DecChar c2 with
    | some k1, some k2 =>
      if c3 = 61 ∧ c4 = 61 ∧ rest = [] then
        some [(k1 * 262144 + k2 * 4096) / 65536]
      else if c4 = 61 ∧ rest = [] then
        match b64DecChar c3 with
        | some k3 =>
          let n := k1 * 262144 + k2 * 4096 + k3 * 64
          some [n / 65536, n / 256 % 256]
        | none => none
      else
        match b64DecChar c3, b64DecChar c4 with
        | some k3, some k4 =>
          let n := k1 * 262144 + k2 * 4096 + k3 * 64 + k4
          (b64Decode rest).map (fun r => n / 65536 :: n / 256 % 256 :: n % 256 :: r)
        | _, _ => none
    | _, _ => none
  | _ => none

/-- Rotate a 32-bit word left by `n` bits. -/
def rotl (n x : Nat) : Nat := ((x <<< n) ||| (x >>> (32 - n))) % 4294967296

/-- Big-endian 32-bit words from a byte list (SHA-1 block schedule input). -/
def toWords : List Nat → List Nat
  | a :: b :: c :: d :: rest => (((a * 256 + b) * 256 + c) * 256 + d) :: toWords rest
  | _ => []

/-- Extend the 16 block words to the 80-word SHA-1 message schedule:
each new word is `rotl1 (w[i-3] xor w[i-8] xor w[i-14] xor w[i-16])`. -/
def buildW : Nat → List Nat → List Nat
  | 0, w => w
  | fuel + 1, w =>
    let i := w.length
    let x := (w.getD (i - 3) 0) ^^^ (w.getD (i - 8) 0) ^^^
      (w.getD (i - 14) 0) ^^^ (w.getD (i - 16) 0)
    buildW fuel (w ++ [rotl 1 x])

/-- Big-endian bytes of a 32-bit word. -/
def wordBytes (w : Nat) : List Nat :=
  [w / 16777216 % 256, w / 65536 % 256, w / 256 % 256, w % 256]

/-- Big-endian 8-byte encoding of the SHA-1 message bit length. -/
def bytesBE8 (n : Nat) : List Nat :=
  [n / 72057594037927936 % 256, n / 281474976710656 % 256,
   n / 1099511627776 % 256, n / 4294967296 % 256,
   n / 16777216 % 256, n / 65536 % 256, n / 256 % 256, n % 256]

/-- Split a byte list into 64-byte blocks (fuel-driven; the fuel is the
length of the list, which always suffices). -/
def chunks64 : Nat → List Nat → List (List Nat)
  | 0, _ => []
  | _, [] => []
  | fuel + 1, l => l.take 64 :: chunks64 fuel (l.drop 64)

/-- SHA-1 round function. -/
def sha1F (i b c d : Nat) : Nat :=
  if i < 20 then (b &&& c) ||| ((b ^^^ 4294967295) &&& d)
  else if i < 40 then b ^^^ c ^^^ d
  else if i < 60 then (b &&& c) ||| (b &&& d) ||| (c &&& d)
  else b ^^^ c ^^^ d

/-- SHA-1 round constants. -/
def sha1K (i : Nat) : Nat :=
  if i < 20 then 1518500249
  else if i < 40 then 1859775393
  else if i < 60 then 2400959708
  else 3395469782

/-- The 80 SHA-1 rounds over the message schedule. -/
def sha1Rounds : Nat → List Nat → Nat → Nat → Nat → Nat → Nat →
    Nat × Nat × Nat × Nat × Nat
  | _, [], a, b, c, d, e => (a, b, c, d, e)
  | i, w :: ws, a, b, c, d, e =>
    let temp := (rotl 5 a + sha1F i b c d + e + sha1K i + w) % 4294967296
    sha1Rounds (i + 1) ws temp a (rotl 30 b) c d

/-- SHA-1 compression of one 64-byte block into the running state. -/
def sha1Compress (st : Nat × Nat × Nat × Nat × Nat) (block : List Nat) :
    Nat × Nat × Nat × Nat × Nat :=
  let w := buildW 64 (toWords block)
  match st with
  | (h0, h1, h2, h3, h4) =>
    match sha1Rounds 0 w h0 h1 h2 h3 h4 with
    | (a, b, c, d, e) =>
      ((h0 + a) % 4294967296, (h1 + b) % 4294967296, (h2 + c) % 4294967296,
       (h3 + d) % 4294967296, (h4 + e) % 4294967296)

/-- SHA-1 of a byte list: pad to a multiple of 64 bytes with `0x80`, zeros
and the 64-bit big-endian bit length, then compress block by block. -/
def sha1 (msg : List Nat) : List Nat :=
  let padded := msg ++ [128] ++ List.replicate ((119 - msg.length % 64) % 64) 0 ++
    bytesBE8 (8 * msg.length)
  let st := (chunks64 padded.length padded).foldl sha1Compress
    (1732584193, 4023233417, 2562383102, 271733878, 3285377520)
  match st with
  | (h0, h1, h2, h3, h4) =>
    wordBytes h0 ++ wordBytes h1 ++ wordBytes h2 ++ wordBytes h3 ++ wordBytes h4

/-- HMAC-SHA1 as produced by Go `hmac.New(sha1.New, key)` followed by
`Sum(nil)`: keys longer than the 64-byte block are hashed first, the key is
zero-padded to the block size, and the inner/outer pads are `0x36`/`0x5c`. -/
def hmacSha1 (key msg : List Nat) : List Nat :=
  let k1 := if key.length > 64 then sha1 key else key
  let k0 := k1 ++ List.replicate (64 - k1.length) 0
  sha1 ((k0.map (fun b => b ^^^ 92)) ++ sha1 ((k0.map (fun b => b ^^^ 54)) ++ msg))

/-- Result of running a Go function that returns `(value, error)`:
it can return a value, return an error (a message string), or panic
(e.g. on a nil-pointer dereference, which is not an error return). -/
inductive GoOutcome (α : Type) where
  | panicked : GoOutcome α
  | err : List Nat → GoOutcome α
  | ok : α → GoOutcome α
deriving DecidableEq, Repr

/-- Whether an outcome is a normal return. -/
def GoOutcome.isOk {α : Type} : GoOutcome α → Bool
  | .ok _ => true
  | _ => false

/-- Whether an outcome is an error return (a panic is not one). -/
def GoOutcome.isErr {α : Type} : GoOutcome α → Bool
  | .err _ => true
  | _ => false

/-- Map over the value of a normal return. -/
def GoOutcome.map {α β : Type} (f : α → β) : GoOutcome α → GoOutcome β
  | .panicked => .panicked
  | .err e => .err e
  | .ok a => .ok (f a)

/-- Outcome of a remote operation together with whether the outbound HTTP
request was actually issued before the function finished. -/
structure CallResult (α : Type) where
  outcome : GoOutcome α
  requestSent : Bool
deriving DecidableEq, Repr

/-- The `Tokbox` struct: API key, partner secret, optional beta endpoint. -/
structure Tokbox where
  apiKey : List Nat
  partnerSecret : List Nat
  betaURL : List Nat
deriving DecidableEq, Repr

/-- The `Session` struct.  The field `T` is the back-reference to the
`*Tokbox` issuer; a Go nil pointer is `none`. -/
structure Session where
  SessionID : List Nat
  ProjectID : List Nat
  PartnerID : List Nat
  CreateDt : List Nat
  SessionStatus : List Nat
  MediaServerURL : List Nat
  T : Option Tokbox
deriving DecidableEq, Repr

/-- The `Archive` struct.  The field `S` is the back-reference to the
originating `*Session`; a Go nil pointer is `none`. -/
structure Archive where
  CreatedAt : Int
  Duration : Int
  HasAudio : Bool
  HasVideo : Bool
  ID : List Nat
  Name : List Nat
  OutputMode : List Nat
  ProjectID : Int
  Reason : List Nat
  Resolution : List Nat
  SessionID : List Nat
  Size : Int
  Status : List Nat
  URL : List Nat
  S : Option Session
deriving DecidableEq, Repr

/-- `jwt.StandardClaims` as filled in by `Tokbox.jwtToken`. -/
structure StandardClaims where
  Issuer : List Nat
  IssuedAt : Int
  ExpiresAt : Int
  Id : List Nat
deriving DecidableEq, Repr

/-- The claim set built by `Tokbox.jwtToken` (`ist` plus standard claims). -/
structure TokboxClaims where
  Ist : List Nat
  Std : StandardClaims
deriving DecidableEq, Repr

/-- The claims constructed by `Tokbox.jwtToken` given the clock reading
`now` (`time.Now().UTC().Unix()`) and the random UUID string.  The actual
HS256 signing is delegated to the external JWT library and is not part of
this repository's code. -/
def Tokbox.jwtClaims (t : Tokbox) (now : Int) (uuid : List Nat) : TokboxClaims :=
  { Ist := strBytes "project"
    Std :=
      { Issuer := t.apiKey
        IssuedAt := now
        ExpiresAt := now + (2 * 24 * 60 * 60)
        Id := uuid } }

/-- Response handling of `Tokbox.NewSession`.  The transport and the JSON
decoder are external collaborators, so the HTTP response (status, body) and
the decoder are passed in; the function models lines 176-191 of
`tokbox.go`: a non-200 status yields an error carrying only the status
code, an empty decoded array yields its own error, and otherwise the first
session is returned with its issuer back-reference set. -/
def Tokbox.NewSession (t : Tokbox) (status : Nat) (body : List Nat)
    (decode : List Nat → Except (List Nat) (List Session)) : GoOutcome Session :=
  if status ≠ 200 then
    .err (strBytes "Tokbox returns error code: " ++ natToDec status)
  else
    match decode body with
    | .error e => .err e
    | .ok ss =>
      match ss with
      | [] => .err (strBytes "Tokbox did not return a session")
      | s :: _ => .ok { s with T := some t }

/-- Response handling of `Session.StartArchiving` (lines 195-243 of
`tokbox.go`).  Before any request is built the code evaluates
`s.T.apiKey`; when the issuer back-reference is nil this is a nil-pointer
dereference, i.e. a panic, and no request is sent.  On a non-200 status the
body is read fully and embedded in the error message after the status
code; on success the decoded archive gets its session back-reference set. -/
def Session.StartArchiving (s : Session) (status : Nat) (body : List Nat)
    (decode : List Nat → Except (List Nat) Archive) : CallResult Archive :=
  match s.T with
  | none => ⟨.panicked, false⟩
  | some _ =>
    if status ≠ 200 then
      ⟨.err (strBytes "Tokbox returns error code: " ++ natToDec status ++
        strBytes ". Message: " ++ body), true⟩
    else
      match decode body with
      | .error e => ⟨.err e, true⟩
      | .ok a => ⟨.ok { a with S := some s }, true⟩

/-- Response handling of `Archive.StopArchiving` (lines 246-287 of
`tokbox.go`).  The code evaluates `archive.S.T.apiKey` before building the
request, so a nil session or a nil issuer back-reference panics without
sending anything.  Error handling matches `StartArchiving`; on success the
decoded archive's session back-reference is copied from the input archive
(`response.S = archive.S`). -/
def Archive.StopArchiving (archive : Archive) (status : Nat) (body : List Nat)
    (decode : List Nat → Except (List Nat) Archive) : CallResult Archive :=
  match archive.S with
  | none => ⟨.panicked, false⟩
  | some s =>
    match s.T with
    | none => ⟨.panicked, false⟩
    | some _ =>
      if status ≠ 200 then
        ⟨.err (strBytes "Tokbox returns error code: " ++ natToDec status ++
          strBytes ". Message: " ++ body), true⟩
      else
        match decode body with
        | .error e => ⟨.err e, true⟩
        | .ok r => ⟨.ok { r with S := archive.S }, true⟩

/-- The `dataStr` built by `Session.Token` (lines 293-305 of `tokbox.go`):
ampersand-joined `key=value` pairs, each value percent-escaped, in the
exact order `session_id`, `create_time`, optional `expire_time`
(`now + expiration`, only when `expiration > 0`), optional `role`,
optional `connection_data`, and finally `nonce`. -/
def tokenData (sessionID : List Nat) (now expiration : Int)
    (role connectionData : List Nat) (nonce : Nat) : List Nat :=
  strBytes "session_id=" ++ queryEscape sessionID ++
  strBytes "&create_time=" ++ queryEscape (intToDec now) ++
  (if expiration > 0 then
    strBytes "&expire_time=" ++ queryEscape (intToDec (now + expiration))
   else []) ++
  (if role.length > 0 then strBytes "&role=" ++ queryEscape role else []) ++
  (if connectionData.length > 0 then
    strBytes "&connection_data=" ++ queryEscape connectionData
   else []) ++
  strBytes "&nonce=" ++ queryEscape (natToDec nonce)

/-- The `preCoded` string of `Session.Token` (lines 316-318 of `tokbox.go`):
`partner_id=<apiKey>&sig=<lowercase hex HMAC-SHA1>:<dataStr>`. -/
def tokenPreCoded (t : Tokbox) (d : List Nat) : List Nat :=
  strBytes "partner_id=" ++ t.apiKey ++ strBytes "&sig=" ++
    hexLower (hmacSha1 t.partnerSecret d) ++ strBytes ":" ++ d

/-- The `(n, err)` pair returned by `h.Write([]byte(dataStr))`.  Per the
contract of `hash.Hash` ("Write ... never returns an error") the write
always succeeds and reports the full input length. -/
def hmacWrite (d : List Nat) : Nat × Option (List Nat) := (d.length, none)

/-- The token string returned on `Session.Token`'s success path:
`"T1==" + base64_standard(preCoded)`. -/
def tokenValue (t : Tokbox) (sessionID role connectionData : List Nat)
    (expiration now : Int) (nonce : Nat) : List Nat :=
  strBytes "T1==" ++
    b64Encode (tokenPreCoded t (tokenData sessionID now expiration role connectionData nonce))

/-- `Session.Token` (lines 290-325 of `tokbox.go`).  The clock reading
`now` (`time.Now().UTC().Unix()`) and the nonce (`rand.Intn(999999)`) are
passed in explicitly.  Dereferencing `s.T` on a nil issuer panics.  Both
error returns of the source (write error, short write) are kept, guarded
by the `hash.Hash` write result. -/
def Session.Token (s : Session) (role connectionData : List Nat)
    (expiration now : Int) (nonce : Nat) : GoOutcome (List Nat) :=
  match s.T with
  | none => .panicked
  | some t =>
    let d := tokenData s.SessionID now expiration role connectionData nonce
    let w := hmacWrite d
    match w.2 with
    | some e => .err e
    | none =>
      if w.1 ≠ d.length then
        .err (strBytes "hmac not enough bytes written")
      else
        .ok (strBytes "T1==" ++ b64Encode (tokenPreCoded t d))

/-- The sequential loop of `Session.Tokens` (lines 353-361 of `tokbox.go`),
starting at call index `i` with `k` iterations left.  `env j` supplies the
clock reading and the nonce drawn by the `j`-th call.  A token whose
signing fails is silently dropped; a panic inside `Token` propagates. -/
def tokensLoop (s : Session) (role connectionData : List Nat)
    (expiration : Int) (env : Nat → Int × Nat) : Nat → Nat → GoOutcome (List (List Nat))
  | _, 0 => .ok []
  | i, k + 1 =>
    match s.Token role connectionData expiration (env i).1 (env i).2 with
    | .panicked => .panicked
    | .err _ => tokensLoop s role connectionData expiration env (i + 1) k
    | .ok a =>
      (tokensLoop s role connectionData expiration env (i + 1) k).map (a :: ·)

/-- `Session.Tokens` in sequential mode (`multithread = false`): a simple
loop issuing `n` tokens in index order, collecting only the successes.
The concurrent branch of the source spawns goroutines and is outside this
deterministic embedding. -/
def Session.Tokens (s : Session) (n : Nat) (role connectionData : List Nat)
    (expiration : Int) (env : Nat → Int × Nat) : GoOutcome (List (List Nat)) :=
  tokensLoop s role connectionData expiration env 0 n

/-- A byte list occurs contiguously inside another one. -/
def containsSub (hay needle : List Nat) : Prop :=
  ∃ pre post, hay = pre ++ needle ++ post

/-- The error message produced by `StartArchiving` and `StopArchiving` on a
non-200 response: status code followed by the response body read as text. -/
def archErrMsg (status : Nat) (body : List Nat) : List Nat :=
  strBytes "Tokbox returns error code: " ++ natToDec status ++
    strBytes ". Message: " ++ body

/-- Concrete issuer used by the witnesses. -/
def tbDemo : Tokbox :=
  { apiKey := strBytes "key123", partnerSecret := strBytes "secret456", betaURL := [] }

/-- Concrete issuer with an empty partner secret. -/
def tbEmptySecret : Tokbox :=
  { apiKey := strBytes "key123", partnerSecret := [], betaURL := [] }

/-- Concrete session bound to `tbDemo`. -/
def sesDemo : Session :=
  { SessionID := strBytes "2_MX4xMjM0NTY3OH4", ProjectID := [], PartnerID := [],
    CreateDt := [], SessionStatus := [], MediaServerURL := [], T := some tbDemo }

/-- Concrete session bound to the empty-secret issuer. -/
def sesEmptySecret : Session := { sesDemo with T := some tbEmptySecret }

/-- Concrete session whose issuer back-reference is nil. -/
def sesNullIssuer : Session := { sesDemo with T := none }

/-- Concrete archive bound to `sesDemo`. -/
def archDemo : Archive :=
  { CreatedAt := 0, Duration := 0, HasAudio := true, HasVideo := true,
    ID := strBytes "archive-1", Name := [], OutputMode := [], ProjectID := 0,
    Reason := [], Resolution := [], SessionID := strBytes "2_MX4xMjM0NTY3OH4",
    Size := 0, Status := strBytes "started", URL := [], S := some sesDemo }

/-- Concrete archive value standing for a decoded stop response (its own
session back-reference is nil, as JSON decoding never sets it). -/
def archResp : Archive :=
  { CreatedAt := 5, Duration := 10, HasAudio := true, HasVideo := false,
    ID := strBytes "archive-1", Name := strBytes "n", OutputMode := strBytes "composed",
    ProjectID := 7, Reason := strBytes "r", Resolution := strBytes "640x480",
    SessionID := strBytes "sid", Size := 3, Status := strBytes "stopped",
    URL := strBytes "u", S := none }

/-- Concrete archive decoder that always fails. -/
def decodeArchFail : List Nat → Except (List Nat) Archive := fun _ => .error []

/-- Concrete archive decoder that always returns `archResp`. -/
def decodeArchOk : List Nat → Except (List Nat) Archive := fun _ => .ok archResp

/-- Concrete session-list decoder that always fails. -/
def decodeSessionsFail : List Nat → Except (List Nat) (List Session) := fun _ => .error []

/-- Concrete per-call clock/nonce environment for the witnesses. -/
def envDemo : Nat → Int × Nat := fun i => (1700000000 + Int.ofNat i, 42 + i)

/-- Concrete non-200 response body, longer than the session-creation error
message it is absent from. -/
def bodyLong : List Nat :=
  strBytes "No clients are actively connected to the OpenTok session, details details"

/-! ## Helper lemmas -/

theorem token_ok_aux {s : Session} {t : Tokbox} (role cd : List Nat) (exp now : Int)
    (nonce : Nat) (hT : s.T = some t) :
    s.Token role cd exp now nonce = .ok (tokenValue t s.SessionID role cd exp now nonce) := by
  unfold Session.Token
  rw [hT]
  simp [hmacWrite, tokenValue]

theorem containsSub_length {hay needle : List Nat} (h : containsSub hay needle) :
    needle.length ≤ hay.length := by
  rcases h with ⟨pre, post, rfl⟩
  simp [List.length_append]
  omega

theorem allLt256_nil : allLt256 [] := by
  intro b hb
  simp at hb

theorem allLt256_append {l1 l2 : List Nat} (h1 : allLt256 l1) (h2 : allLt256 l2) :
    allLt256 (l1 ++ l2) := by
  intro b hb
  rcases List.mem_append.mp hb with h | h
  · exact h1 b h
  · exact h2 b h

theorem allLt256_append_iff {l1 l2 : List Nat} :
    allLt256 (l1 ++ l2) ↔ allLt256 l1 ∧ allLt256 l2 := by
  constructor
  · intro h
    exact ⟨fun b hb => h b (List.mem_append.mpr (Or.inl hb)),
      fun b hb => h b (List.mem_append.mpr (Or.inr hb))⟩
  · rintro ⟨h1, h2⟩
    exact allLt256_append h1 h2

theorem allLt256_ite {c : Prop} [Decidable c] {l1 l2 : List Nat}
    (h1 : allLt256 l1) (h2 : allLt256 l2) : allLt256 (if c then l1 else l2) := by
  split
  · exact h1
  · exact h2

theorem charBytes_lt (c : Char) : allLt256 (charBytes c) := by
  have hv : c.toNat < 1114112 := by
    have h := c.valid
    rcases h with h | ⟨h1, h2⟩
    · show c.val.toNat < 1114112
      omega
    · show c.val.toNat < 1114112
      omega
  intro b hb
  simp only [charBytes] at hb
  split at hb
  · simp at hb
    omega
  · split at hb
    · simp at hb
      rcases hb with h | h <;> omega
    · split at hb
      · simp at hb
        rcases hb with h | h | h <;> omega
      · simp at hb
        rcases hb with h | h | h | h <;> omega

theorem charsBytes_lt (cs : List Char) : allLt256 (charsBytes cs) := by
  induction cs with
  | nil => exact allLt256_nil
  | cons c cs ih => exact allLt256_append (charBytes_lt c) ih

theorem strBytes_lt (s : String) : allLt256 (strBytes s) := charsBytes_lt s.data

theorem hexDigit_lt {n : Nat} (h : n < 16) : hexDigit n < 256 := by
  unfold hexDigit
  split <;> omega

theorem hexLower_lt {l : List Nat} (h : allLt256 l) : allLt256 (hexLower l) := by
  induction l with
  | nil => exact allLt256_nil
  | cons b rest ih =>
    intro x hx
    have hb : b < 256 := h b (by simp)
    unfold hexLower at hx
    simp at hx
    rcases hx with h1 | h1 | h1
    · subst h1
      exact hexDigit_lt (by omega)
    · subst h1
      exact hexDigit_lt (by omega)
    · exact ih (fun y hy => h y (by simp [hy])) x h1

theorem natDecAux_lt (fuel n : Nat) : allLt256 (natDecAux fuel n) := by
  induction fuel generalizing n with
  | zero =>
    intro b hb
    simp [natDecAux] at hb
  | succ fuel ih =>
    match n with
    | 0 => exact allLt256_nil
    | m + 1 =>
      intro b hb
      unfold natDecAux at hb
      rcases List.mem_append.mp hb with h | h
      · exact ih _ b h
      · simp at h
        omega

theorem natToDec_lt (n : Nat) : allLt256 (natToDec n) := by
  unfold natToDec
  split
  · intro b hb
    simp at hb
    omega
  · exact natDecAux_lt _ _

theorem intToDec_lt (i : Int) : allLt256 (intToDec i) := by
  match i with
  | Int.ofNat n => exact natToDec_lt n
  | Int.negSucc m =>
    intro b hb
    unfold intToDec at hb
    simp at hb
    rcases hb with h | h
    · omega
    · exact natToDec_lt _ b h

theorem hexDigitUpper_lt {n : Nat} (h : n < 16) : hexDigitUpper n < 256 := by
  unfold hexDigitUpper
  split <;> omega

theorem queryEscape_lt {l : List Nat} (h : allLt256 l) : allLt256 (queryEscape l) := by
  induction l with
  | nil => exact allLt256_nil
  | cons c rest ih =>
    have hc : c < 256 := h c (by simp)
    have hrest := ih (fun y hy => h y (by simp [hy]))
    intro x hx
    unfold queryEscape at hx
    split at hx
    · simp at hx
      rcases hx with h1 | h1
      · rename_i hun
        unfold isUnreservedQ at hun
        simp at hun
        omega
      · exact hrest x h1
    · split at hx
      · simp at hx
        rcases hx with h1 | h1
        · omega
        · exact hrest x h1
      · simp at hx
        rcases hx with h1 | h1 | h1 | h1
        · omega
        · subst h1
          exact hexDigitUpper_lt (by omega)
        · subst h1
          exact hexDigitUpper_lt (by omega)
        · exact hrest x h1

theorem wordBytes_lt (w : Nat) : allLt256 (wordBytes w) := by
  intro b hb
  unfold wordBytes at hb
  simp at hb
  rcases hb with h | h | h | h <;> omega

theorem sha1_lt (msg : List Nat) : allLt256 (sha1 msg) := by
  unfold sha1
  simp only [allLt256_append_iff]
  exact ⟨⟨⟨⟨wordBytes_lt _, wordBytes_lt _⟩, wordBytes_lt _⟩, wordBytes_lt _⟩,
    wordBytes_lt _⟩

theorem hmacSha1_lt (key msg : List Nat) : allLt256 (hmacSha1 key msg) := by
  unfold hmacSha1
  exact sha1_lt _

theorem tokenData_lt {sid role cd : List Nat} (now exp : Int) (nonce : Nat)
    (h1 : allLt256 sid) (h2 : allLt256 role) (h3 : allLt256 cd) :
    allLt256 (tokenData sid now exp role cd nonce) := by
  unfold tokenData
  simp only [allLt256_append_iff]
  exact ⟨⟨⟨⟨⟨⟨⟨⟨strBytes_lt _, queryEscape_lt h1⟩, strBytes_lt _⟩,
    queryEscape_lt (intToDec_lt _)⟩,
    allLt256_ite (allLt256_append (strBytes_lt _) (queryEscape_lt (intToDec_lt _)))
      allLt256_nil⟩,
    allLt256_ite (allLt256_append (strBytes_lt _) (queryEscape_lt h2)) allLt256_nil⟩,
    allLt256_ite (allLt256_append (strBytes_lt _) (queryEscape_lt h3)) allLt256_nil⟩,
    strBytes_lt _⟩, queryEscape_lt (natToDec_lt _)⟩

theorem tokenPreCoded_lt {t : Tokbox} {d : List Nat} (hkey : allLt256 t.apiKey)
    (hd : allLt256 d) : allLt256 (tokenPreCoded t d) := by
  unfold tokenPreCoded
  simp only [allLt256_append_iff]
  exact ⟨⟨⟨⟨⟨strBytes_lt _, hkey⟩, strBytes_lt _⟩,
    hexLower_lt (hmacSha1_lt _ _)⟩, strBytes_lt _⟩, hd⟩

theorem b64DecChar_b64Char : ∀ k, k < 64 → b64DecChar (b64Char k) = some k := by decide

theorem b64Char_ne61 : ∀ k, k < 64 → b64Char k ≠ 61 := by decide

theorem b64_roundtrip_len :
    ∀ N l, l.length ≤ N → allLt256 l → b64Decode (b64Encode l) = some l := by
  intro N
  induction N with
  | zero =>
    intro l hl _
    have : l = [] := List.length_eq_zero.mp (Nat.le_zero.mp hl)
    subst this
    rfl
  | succ N ih =>
    intro l hl hb
    match l with
    | [] => rfl
    | [b1] =>
      have hb1 : b1 < 256 := hb b1 (by simp)
      have e1 : b64DecChar (b64Char (b1 * 65536 / 262144)) = some (b1 * 65536 / 262144) :=
        b64DecChar_b64Char _ (by omega)
      have e2 : b64DecChar (b64Char (b1 * 65536 / 4096 % 64)) = some (b1 * 65536 / 4096 % 64) :=
        b64DecChar_b64Char _ (by omega)
      simp only [b64Encode, b64Decode, e1, e2]
      rw [if_pos (by simp)]
      congr 1
      congr 1
      omega
    | [b1, b2] =>
      have hb1 : b1 < 256 := hb b1 (by simp)
      have hb2 : b2 < 256 := hb b2 (by simp)
      have e1 : b64DecChar (b64Char ((b1 * 65536 + b2 * 256) / 262144)) =
          some ((b1 * 65536 + b2 * 256) / 262144) := b64DecChar_b64Char _ (by omega)
      have e2 : b64DecChar (b64Char ((b1 * 65536 + b2 * 256) / 4096 % 64)) =
          some ((b1 * 65536 + b2 * 256) / 4096 % 64) := b64DecChar_b64Char _ (by omega)
      have e3 : b64DecChar (b64Char ((b1 * 65536 + b2 * 256) / 64 % 64)) =
          some ((b1 * 65536 + b2 * 256) / 64 % 64) := b64DecChar_b64Char _ (by omega)
      have n3 : b64Char ((b1 * 65536 + b2 * 256) / 64 % 64) ≠ 61 :=
        b64Char_ne61 _ (by omega)
      simp only [b64Encode, b64Decode, e1, e2, e3]
      rw [if_neg (by simp [n3])]
      rw [if_pos (by simp)]
      congr 1
      have : (b1 * 65536 + b2 * 256) / 262144 * 262144 +
          (b1 * 65536 + b2 * 256) / 4096 % 64 * 4096 +
          (b1 * 65536 + b2 * 256) / 64 % 64 * 64 = b1 * 65536 + b2 * 256 := by omega
      rw [this]
      congr 1
      · omega
      congr 1
      omega
    | b1 :: b2 :: b3 :: rest =>
      have hb1 : b1 < 256 := hb b1 (by simp)
      have hb2 : b2 < 256 := hb b2 (by simp)
      have hb3 : b3 < 256 := hb b3 (by simp)
      have hrest : allLt256 rest := fun y hy => hb y (by simp [hy])
      have hlen : rest.length ≤ N := by
        simp [List.length_cons] at hl
        omega
      have e1 : b64DecChar (b64Char ((b1 * 65536 + b2 * 256 + b3) / 262144)) =
          some ((b1 * 65536 + b2 * 256 + b3) / 262144) := b64DecChar_b64Char _ (by omega)
      have e2 : b64DecChar (b64Char ((b1 * 65536 + b2 * 256 + b3) / 4096 % 64)) =
          some ((b1 * 65536 + b2 * 256 + b3) / 4096 % 64) := b64DecChar_b64Char _ (by omega)
      have e3 : b64DecChar (b64Char ((b1 * 65536 + b2 * 256 + b3) / 64 % 64)) =
          some ((b1 * 65536 + b2 * 256 + b3) / 64 % 64) := b64DecChar_b64Char _ (by omega)
      have e4 : b64DecChar (b64Char ((b1 * 65536 + b2 * 256 + b3) % 64)) =
          some ((b1 * 65536 + b2 * 256 + b3) % 64) := b64DecChar_b64Char _ (by omega)
      have n3 : b64Char ((b1 * 65536 + b2 * 256 + b3) / 64 % 64) ≠ 61 :=
        b64Char_ne61 _ (by omega)
      have n4 : b64Char ((b1 * 65536 + b2 * 256 + b3) % 64) ≠ 61 :=
        b64Char_ne61 _ (by omega)
      simp only [b64Encode, b64Decode, e1, e2, e3, e4]
      rw [if_neg (by simp [n3])]
      rw [if_neg (by simp [n4])]
      rw [ih rest hlen hrest]
      simp only [Option.map_some']
      congr 1
      have hm : (b1 * 65536 + b2 * 256 + b3) / 262144 * 262144 +
          (b1 * 65536 + b2 * 256 + b3) / 4096 % 64 * 4096 +
          (b1 * 65536 + b2 * 256 + b3) / 64 % 64 * 64 +
          (b1 * 65536 + b2 * 256 + b3) % 64 = b1 * 65536 + b2 * 256 + b3 := by omega
      rw [hm]
      congr 1
      · omega
      congr 1
      · omega
      congr 1
      omega

theorem tokensLoop_ok {s : Session} {t : Tokbox} (role cd : List Nat) (exp : Int)
    (env : Nat → Int × Nat) (hT : s.T = some t) :
    ∀ k i, tokensLoop s role cd exp env i k =
      .ok ((List.range' i k).map fun j =>
        tokenValue t s.SessionID role cd exp (env j).1 (env j).2) := by
  intro k
  induction k with
  | zero =>
    intro i
    rfl
  | succ k ih =>
    intro i
    rw [tokensLoop, token_ok_aux role cd exp (env i).1 (env i).2 hT, ih (i + 1)]
    simp [GoOutcome.map, List.range'_succ]

/-- C1: the participant token produced by `Session.Token` is
`"T1==" + base64("partner_id=" + apiKey + "&sig=" + hex(HMAC-SHA1(dataStr, secret)) + ":" + dataStr)`,
where `dataStr` is the ampersand-joined percent-escaped key=value string in
the exact order session_id, create_time, optional expire_time
(create_time + expiration), optional role, optional connection_data,
nonce; it always starts with `session_id=` and ends with the nonce field. -/
theorem token_format_spec (s : Session) (t : Tokbox) (role cd : List Nat)
    (exp now : Int) (nonce : Nat) (hT : s.T = some t) (hn : nonce < 999999) :
    s.Token role cd exp now nonce =
      .ok (strBytes "T1==" ++ b64Encode (strBytes "partner_id=" ++ t.apiKey ++
        strBytes "&sig=" ++
        hexLower (hmacSha1 t.partnerSecret (tokenData s.SessionID now exp role cd nonce)) ++
        strBytes ":" ++ tokenData s.SessionID now exp role cd nonce)) ∧
    tokenData s.SessionID now exp role cd nonce =
      strBytes "session_id=" ++ queryEscape s.SessionID ++
      strBytes "&create_time=" ++ queryEscape (intToDec now) ++
      (if exp > 0 then strBytes "&expire_time=" ++ queryEscape (intToDec (now + exp)) else []) ++
      (if role.length > 0 then strBytes "&role=" ++ queryEscape role else []) ++
      (if cd.length > 0 then strBytes "&connection_data=" ++ queryEscape cd else []) ++
      strBytes "&nonce=" ++ queryEscape (natToDec nonce) ∧
    (∃ rest, tokenData s.SessionID now exp role cd nonce = strBytes "session_id=" ++ rest) ∧
    (∃ front, tokenData s.SessionID now exp role cd nonce =
      front ++ (strBytes "&nonce=" ++ queryEscape (natToDec nonce))) := by
  refine ⟨?_, rfl, ?_, ?_⟩
  · rw [token_ok_aux role cd exp now nonce hT]
    rfl
  · exact ⟨queryEscape s.SessionID ++
      (strBytes "&create_time=" ++ (queryEscape (intToDec now) ++
      ((if exp > 0 then strBytes "&expire_time=" ++ queryEscape (intToDec (now + exp)) else []) ++
      ((if role.length > 0 then strBytes "&role=" ++ queryEscape role else []) ++
      ((if cd.length > 0 then strBytes "&connection_data=" ++ queryEscape cd else []) ++
      (strBytes "&nonce=" ++ queryEscape (natToDec nonce))))))),
      by simp [tokenData, List.append_assoc]⟩
  · exact ⟨strBytes "session_id=" ++ queryEscape s.SessionID ++
      strBytes "&create_time=" ++ queryEscape (intToDec now) ++
      (if exp > 0 then strBytes "&expire_time=" ++ queryEscape (intToDec (now + exp)) else []) ++
      (if role.length > 0 then strBytes "&role=" ++ queryEscape role else []) ++
      (if cd.length > 0 then strBytes "&connection_data=" ++ queryEscape cd else []),
      by simp [tokenData, List.append_assoc]⟩

theorem token_format_spec_witness :
    sesDemo.T = some tbDemo ∧ (42 : Nat) < 999999 ∧
    sesDemo.Token (strBytes "publisher") (strBytes "hello") 3600 1700000000 42 =
      .ok (strBytes "T1==" ++ b64Encode (strBytes "partner_id=" ++ tbDemo.apiKey ++
        strBytes "&sig=" ++
        hexLower (hmacSha1 tbDemo.partnerSecret
          (tokenData sesDemo.SessionID 1700000000 3600 (strBytes "publisher") (strBytes "hello") 42)) ++
        strBytes ":" ++ tokenData sesDemo.SessionID 1700000000 3600 (strBytes "publisher") (strBytes "hello") 42)) :=
  ⟨rfl, by decide,
    (token_format_spec sesDemo tbDemo (strBytes "publisher") (strBytes "hello")
      3600 1700000000 42 rfl (by decide)).1⟩

/-- C2: decoding the base64 payload of a generated participant token (after
the `"T1=="` prefix) exposes `partner_id=<apiKey>&sig=<hex>:<dataStr>`, and
re-computing HMAC-SHA1 over the embedded `dataStr` with the same secret
reproduces the embedded lowercase-hex signature exactly. -/
theorem token_sig_roundtrip (s : Session) (t : Tokbox) (role cd : List Nat)
    (exp now : Int) (nonce : Nat) (hT : s.T = some t)
    (hkey : allLt256 t.apiKey) (hsid : allLt256 s.SessionID)
    (hrole : allLt256 role) (hcd : allLt256 cd) :
    ∃ enc sig d,
      s.Token role cd exp now nonce = .ok (strBytes "T1==" ++ enc) ∧
      b64Decode enc =
        some (strBytes "partner_id=" ++ t.apiKey ++ strBytes "&sig=" ++ sig ++
          strBytes ":" ++ d) ∧
      sig = hexLower (hmacSha1 t.partnerSecret d) ∧
      d = tokenData s.SessionID now exp role cd nonce := by
  refine ⟨b64Encode (tokenPreCoded t (tokenData s.SessionID now exp role cd nonce)),
    hexLower (hmacSha1 t.partnerSecret (tokenData s.SessionID now exp role cd nonce)),
    tokenData s.SessionID now exp role cd nonce, ?_, ?_, rfl, rfl⟩
  · rw [token_ok_aux role cd exp now nonce hT]
    rfl
  · have hpre : allLt256 (tokenPreCoded t (tokenData s.SessionID now exp role cd nonce)) :=
      tokenPreCoded_lt hkey (tokenData_lt now exp nonce hsid hrole hcd)
    rw [b64_roundtrip_len (tokenPreCoded t (tokenData s.SessionID now exp role cd nonce)).length
      _ le_rfl hpre]
    rfl

theorem token_sig_roundtrip_witness :
    sesDemo.T = some tbDemo ∧ allLt256 tbDemo.apiKey ∧ allLt256 sesDemo.SessionID ∧
    allLt256 (strBytes "publisher") ∧ allLt256 (strBytes "hello") ∧
    ∃ enc sig d,
      sesDemo.Token (strBytes "publisher") (strBytes "hello") 3600 1700000000 42 =
        .ok (strBytes "T1==" ++ enc) ∧
      b64Decode enc =
        some (strBytes "partner_id=" ++ tbDemo.apiKey ++ strBytes "&sig=" ++ sig ++
          strBytes ":" ++ d) ∧
      sig = hexLower (hmacSha1 tbDemo.partnerSecret d) ∧
      d = tokenData sesDemo.SessionID 1700000000 3600 (strBytes "publisher") (strBytes "hello") 42 :=
  ⟨rfl, by decide, by decide, by decide, by decide,
    token_sig_roundtrip sesDemo tbDemo (strBytes "publisher") (strBytes "hello")
      3600 1700000000 42 rfl (by decide) (by decide) (by decide) (by decide)⟩

/-- C3 counterexample: on a session whose issuer back-reference is nil,
`StartArchiving` panics on the nil-pointer dereference (`s.T.apiKey`)
instead of returning an `InvalidStateError`: the outcome is a panic, not
an error return. -/
theorem start_archiving_nil_issuer_cex :
    sesNullIssuer.StartArchiving 200 [] decodeArchFail =
      ⟨GoOutcome.panicked, false⟩ ∧
    (sesNullIssuer.StartArchiving 200 [] decodeArchFail).outcome.isErr = false :=
  ⟨rfl, rfl⟩

/-- C3 (amended): `StartArchiving` on a session with a nil issuer
back-reference panics before any network request is issued; it does not
return an error value. -/
theorem start_archiving_nil_issuer (s : Session) (status : Nat) (body : List Nat)
    (decode : List Nat → Except (List Nat) Archive) (hT : s.T = none) :
    s.StartArchiving status body decode = ⟨GoOutcome.panicked, false⟩ := by
  unfold Session.StartArchiving
  rw [hT]

theorem start_archiving_nil_issuer_witness :
    sesNullIssuer.T = none ∧
    sesNullIssuer.StartArchiving 404 bodyLong decodeArchFail =
      ⟨GoOutcome.panicked, false⟩ :=
  ⟨rfl, start_archiving_nil_issuer sesNullIssuer 404 bodyLong decodeArchFail rfl⟩

/-- C4 counterexample: on a non-200 session-creation response the error
message carries only the status code — the response body does not occur in
it (here it cannot, being longer than the whole message). -/
theorem new_session_non200_cex :
    tbDemo.NewSession 500 bodyLong decodeSessionsFail =
      .err (strBytes "Tokbox returns error code: 500") ∧
    ¬ containsSub (strBytes "Tokbox returns error code: 500") bodyLong :=
  ⟨rfl, fun hc => absurd (containsSub_length hc) (by decide)⟩

/-- C4 (amended): on a non-200 response, `StartArchiving` and
`StopArchiving` return an error whose message contains both the decimal
status code and the full response body, while `NewSession` returns an
error carrying only the status code (its body is never read). -/
theorem non200_error_messages (t : Tokbox) (s : Session) (archive : Archive)
    (ses : Session) (status : Nat) (body : List Nat)
    (decS : List Nat → Except (List Nat) (List Session))
    (decA : List Nat → Except (List Nat) Archive)
    (hs : status ≠ 200) (hT : s.T = some t) (hS : archive.S = some ses)
    (hT2 : ses.T = some t) :
    ((s.StartArchiving status body decA).outcome = .err (archErrMsg status body) ∧
      containsSub (archErrMsg status body) (natToDec status) ∧
      containsSub (archErrMsg status body) body) ∧
    ((archive.StopArchiving status body decA).outcome = .err (archErrMsg status body)) ∧
    (t.NewSession status body decS =
      .err (strBytes "Tokbox returns error code: " ++ natToDec status)) := by
  refine ⟨⟨?_, ?_, ?_⟩, ?_, ?_⟩
  · unfold Session.StartArchiving
    rw [hT]
    simp only [if_pos hs]
    rfl
  · exact ⟨strBytes "Tokbox returns error code: ",
      strBytes ". Message: " ++ body, by simp [archErrMsg, List.append_assoc]⟩
  · exact ⟨strBytes "Tokbox returns error code: " ++ natToDec status ++
      strBytes ". Message: ", [], by simp [archErrMsg, List.append_assoc]⟩
  · unfold Archive.StopArchiving
    simp only [hS, hT2]
    simp only [if_pos hs]
    rfl
  · unfold Tokbox.NewSession
    simp only [if_pos hs]

theorem non200_error_messages_witness :
    (404 : Nat) ≠ 200 ∧ sesDemo.T = some tbDemo ∧ archDemo.S = some sesDemo ∧
    sesDemo.T = some tbDemo ∧
    ((sesDemo.StartArchiving 404 bodyLong decodeArchFail).outcome =
        .err (archErrMsg 404 bodyLong) ∧
      containsSub (archErrMsg 404 bodyLong) (natToDec 404) ∧
      containsSub (archErrMsg 404 bodyLong) bodyLong) ∧
    ((archDemo.StopArchiving 404 bodyLong decodeArchFail).outcome =
      .err (archErrMsg 404 bodyLong)) ∧
    (tbDemo.NewSession 404 bodyLong decodeSessionsFail =
      .err (strBytes "Tokbox returns error code: " ++ natToDec 404)) :=
  ⟨by decide, rfl, rfl, rfl,
    non200_error_messages tbDemo sesDemo archDemo sesDemo 404 bodyLong
      decodeSessionsFail decodeArchFail (by decide) rfl rfl rfl⟩

/-- C5 counterexample: with an empty `apiSecret` the participant-token
signing does not fail — `Session.Token` returns a token (HMAC-SHA1 accepts
an empty key, and the hash write is never short). -/
theorem token_empty_secret_cex :
    (sesEmptySecret.Token (strBytes "publisher") [] 0 1700000000 42).isOk = true ∧
    tbEmptySecret.partnerSecret = [] := by
  constructor
  · rw [token_ok_aux (strBytes "publisher") [] 0 1700000000 42 (rfl : sesEmptySecret.T = some tbEmptySecret)]
    rfl
  · rfl

/-- C5 (amended): neither an empty secret nor anything else makes
`Session.Token` fail with a signing error: with an empty `partnerSecret`
the token is still produced (the short-write branch never fires because
the HMAC write always reports the full input length, and no empty-secret
check exists in the code). -/
theorem token_empty_secret_ok (s : Session) (t : Tokbox) (role cd : List Nat)
    (exp now : Int) (nonce : Nat) (hT : s.T = some t)
    (hsec : t.partnerSecret = []) :
    ∃ tok, s.Token role cd exp now nonce = .ok tok ∧
      (s.Token role cd exp now nonce).isErr = false := by
  refine ⟨tokenValue t s.SessionID role cd exp now nonce, token_ok_aux role cd exp now nonce hT, ?_⟩
  rw [token_ok_aux role cd exp now nonce hT]
  rfl

theorem token_empty_secret_ok_witness :
    sesEmptySecret.T = some tbEmptySecret ∧ tbEmptySecret.partnerSecret = [] ∧
    ∃ tok, sesEmptySecret.Token (strBytes "moderator") (strBytes "d") 60 1700000001 7 = .ok tok ∧
      (sesEmptySecret.Token (strBytes "moderator") (strBytes "d") 60 1700000001 7).isErr = false :=
  ⟨rfl, rfl,
    token_empty_secret_ok sesEmptySecret tbEmptySecret (strBytes "moderator")
      (strBytes "d") 60 1700000001 7 rfl rfl⟩

/-- C6: the auth assertion's expires-at claim equals its issued-at claim
plus the fixed two-day window (2 * 24 * 60 * 60 seconds), given a fixed
clock reading. -/
theorem jwt_expiry_window (t : Tokbox) (now : Int) (uuid : List Nat) :
    (t.jwtClaims now uuid).Std.ExpiresAt =
      (t.jwtClaims now uuid).Std.IssuedAt + 2 * 24 * 60 * 60 := rfl

/-- C7: in sequential mode `Session.Tokens` runs a simple loop in index
order; since every signing succeeds, it returns exactly `n` tokens, the
`i`-th being the token signed with the clock/nonce drawn by call `i`. -/
theorem tokens_sequential (s : Session) (t : Tokbox) (n : Nat) (role cd : List Nat)
    (exp : Int) (env : Nat → Int × Nat) (hT : s.T = some t) :
    s.Tokens n role cd exp env =
      .ok ((List.range n).map fun i =>
        tokenValue t s.SessionID role cd exp (env i).1 (env i).2) ∧
    ((List.range n).map fun i =>
      tokenValue t s.SessionID role cd exp (env i).1 (env i).2).length = n := by
  constructor
  · unfold Session.Tokens
    rw [tokensLoop_ok role cd exp env hT n 0, List.range_eq_range' n]
  · simp

theorem tokens_sequential_witness :
    sesDemo.T = some tbDemo ∧
    sesDemo.Tokens 5 (strBytes "publisher") [] 0 envDemo =
      .ok ((List.range 5).map fun i =>
        tokenValue tbDemo sesDemo.SessionID (strBytes "publisher") [] 0
          (envDemo i).1 (envDemo i).2) ∧
    ((List.range 5).map fun i =>
      tokenValue tbDemo sesDemo.SessionID (strBytes "publisher") [] 0
        (envDemo i).1 (envDemo i).2).length = 5 :=
  ⟨rfl, (tokens_sequential sesDemo tbDemo 5 (strBytes "publisher") [] 0 envDemo rfl).1,
    (tokens_sequential sesDemo tbDemo 5 (strBytes "publisher") [] 0 envDemo rfl).2⟩

/-- C8: signing the same participant-token input twice with the same
timestamp and the same forced nonce yields byte-identical token strings —
with the clock and randomness fixed, `Session.Token` is deterministic. -/
theorem token_determinism (s : Session) (t : Tokbox) (role cd : List Nat)
    (exp now : Int) (nonce : Nat) (hT : s.T = some t)
    (hsec : t.partnerSecret ≠ []) :
    ∃ tok, s.Token role cd exp now nonce = .ok tok ∧
      s.Token role cd exp now nonce = .ok tok :=
  ⟨tokenValue t s.SessionID role cd exp now nonce,
    token_ok_aux role cd exp now nonce hT, token_ok_aux role cd exp now nonce hT⟩

theorem token_determinism_witness :
    sesDemo.T = some tbDemo ∧ tbDemo.partnerSecret ≠ [] ∧
    ∃ tok, sesDemo.Token (strBytes "subscriber") [] 0 1700000000 41 = .ok tok ∧
      sesDemo.Token (strBytes "subscriber") [] 0 1700000000 41 = .ok tok :=
  ⟨rfl, by decide,
    token_determinism sesDemo tbDemo (strBytes "subscriber") [] 0 1700000000 41
      rfl (by decide)⟩

/-- C9: when `StopArchiving` succeeds, the returned archive's session
back-reference is exactly the input archive's (copied over), and every
other field comes from the decoded response archive. -/
theorem stop_archiving_copies_session (archive : Archive) (ses : Session)
    (t : Tokbox) (body : List Nat) (decode : List Nat → Except (List Nat) Archive)
    (r : Archive) (hS : archive.S = some ses) (hT : ses.T = some t)
    (hdec : decode body = .ok r) :
    ∃ res, (archive.StopArchiving 200 body decode).outcome = .ok res ∧
      res.S = archive.S ∧
      res.CreatedAt = r.CreatedAt ∧ res.Duration = r.Duration ∧
      res.HasAudio = r.HasAudio ∧ res.HasVideo = r.HasVideo ∧
      res.ID = r.ID ∧ res.Name = r.Name ∧ res.OutputMode = r.OutputMode ∧
      res.ProjectID = r.ProjectID ∧ res.Reason = r.Reason ∧
      res.Resolution = r.Resolution ∧ res.SessionID = r.SessionID ∧
      res.Size = r.Size ∧ res.Status = r.Status ∧ res.URL = r.URL := by
  refine ⟨{ r with S := archive.S }, ?_, rfl, rfl, rfl, rfl, rfl, rfl, rfl, rfl,
    rfl, rfl, rfl, rfl, rfl, rfl, rfl⟩
  unfold Archive.StopArchiving
  simp only [hS, hT, hdec]
  simp

theorem stop_archiving_copies_session_witness :
    archDemo.S = some sesDemo ∧ sesDemo.T = some tbDemo ∧
    decodeArchOk [] = .ok archResp ∧
    ∃ res, (archDemo.StopArchiving 200 [] decodeArchOk).outcome = .ok res ∧
      res.S = archDemo.S ∧
      res.CreatedAt = archResp.CreatedAt ∧ res.Duration = archResp.Duration ∧
      res.HasAudio = archResp.HasAudio ∧ res.HasVideo = archResp.HasVideo ∧
      res.ID = archResp.ID ∧ res.Name = archResp.Name ∧
      res.OutputMode = archResp.OutputMode ∧ res.ProjectID = archResp.ProjectID ∧
      res.Reason = archResp.Reason ∧ res.Resolution = archResp.Resolution ∧
      res.SessionID = archResp.SessionID ∧ res.Size = archResp.Size ∧
      res.Status = archResp.Status ∧ res.URL = archResp.URL :=
  ⟨rfl, rfl, rfl,
    stop_archiving_copies_session archDemo sesDemo tbDemo [] decodeArchOk archResp
      rfl rfl rfl⟩

/-- C10: for a session with a non-nil issuer back-reference, `Session.Token`
never returns an error: the HMAC write always succeeds with the full input
length, both error branches are unreachable, and a token is produced. -/
theorem token_never_fails (s : Session) (t : Tokbox) (role cd : List Nat)
    (exp now : Int) (nonce : Nat) (hT : s.T = some t) :
    s.Token role cd exp now nonce =
      .ok (tokenValue t s.SessionID role cd exp now nonce) ∧
    (s.Token role cd exp now nonce).isErr = false ∧
    (s.Token role cd exp now nonce).isOk = true := by
  refine ⟨token_ok_aux role cd exp now nonce hT, ?_, ?_⟩
  · rw [token_ok_aux role cd exp now nonce hT]
    rfl
  · rw [token_ok_aux role cd exp now nonce hT]
    rfl

theorem token_never_fails_witness :
    sesDemo.T = some tbDemo ∧
    (sesDemo.Token [] [] (-5) (-1700000000) 0 =
      .ok (tokenValue tbDemo sesDemo.SessionID [] [] (-5) (-1700000000) 0) ∧
    (sesDemo.Token [] [] (-5) (-1700000000) 0).isErr = false ∧
    (sesDemo.Token [] [] (-5) (-1700000000) 0).isOk = true) :=
  ⟨rfl, token_never_fails sesDemo tbDemo [] [] (-5) (-1700000000) 0 rfl⟩
